import Mathlib

/-!
Verification of the rtb-simulator core against its specification.

The Go sources are shallowly embedded: Go slices become `List`, pointers that
may be nil become `Option`, `float64` prices become `ℚ`, `time.Duration`
(an int64 nanosecond count) becomes `ℤ`, and `uint64` counters become `ℕ`.
Concurrency (the dispatcher's fan-out and the engine's loop) is embedded by
making the environment's nondeterministic choices — per-endpoint call
behaviour, channel arrival order, the point at which cancellation is
observed — explicit parameters of otherwise pure functions.
-/

namespace RTB

/-! ## OpenRTB data model (pkg/openrtb) -/

/-- `openrtb.Bid`: a single bid. Only the fields the core reads are kept. -/
structure Bid where
  id : String
  impID : String
  price : ℚ
  deriving Repr, DecidableEq

/-- `openrtb.SeatBid`: a collection of bids from a single seat. -/
structure SeatBid where
  bid : List Bid
  seat : String
  deriving Repr, DecidableEq

/-- `openrtb.BidResponse`: an OpenRTB 2.5 bid response.  A Go nil `SeatBid`
slice and an empty one are both `[]` here; both have length 0 and range over
nothing, exactly as in Go. -/
structure BidResponse where
  id : String
  seatBid : List SeatBid
  deriving Repr, DecidableEq

/-- `openrtb.Imp`: an impression.  Only the bid floor matters to the core. -/
structure Imp where
  id : String
  bidFloor : ℚ
  deriving Repr, DecidableEq

/-- `openrtb.BidRequest`: the fields the engine reads. -/
structure BidRequest where
  id : String
  imp : List Imp
  deriving Repr, DecidableEq

/-- `BidResponse.IsNoBid`: true if the response contains no bids.
Go: return true when `len(r.SeatBid) == 0`; otherwise scan the seat bids and
return false on the first nonempty one, else true. -/
def BidResponse.IsNoBid (r : BidResponse) : Bool :=
  if r.seatBid.length = 0 then true
  else r.seatBid.all (fun sb => !(sb.bid.length > 0))

/-- `BidResponse.AllBids`: flattened slice of all bids across all seats,
in seat order (Go appends `sb.Bid...` for each seat bid in order). -/
def BidResponse.AllBids (r : BidResponse) : List Bid :=
  r.seatBid.foldl (fun bids sb => bids ++ sb.bid) []

/-! ## Dispatcher result type (internal/dispatcher) -/

/-- Errors are opaque values to the core; we keep a tag.  `ctxCanceled`
stands for the non-nil `ctx.Err()` cause. -/
inductive GoError where
  | ctxCanceled
  | postTimeout
  | postTransport
  | postServerError (status : ℤ)
  | postDecode
  deriving Repr, DecidableEq

/-- `dispatcher.Result`: per-DSP outcome of one dispatched request.
`response`/`error` are nilable pointers, hence `Option`. -/
structure Result where
  dspName : String
  response : Option BidResponse
  error : Option GoError
  latency : ℤ
  deriving Repr, DecidableEq

/-! ## Auction (internal/auction) -/

/-- `auction.BidWithDSP`: a bid paired with its originating DSP. -/
structure BidWithDSP where
  bid : Bid
  dspName : String
  deriving Repr, DecidableEq

/-- `auction.Outcome`: result of an auction.  `winner` is a nilable pointer.
The zero value of `Outcome{RequestID: id}` has `winner = none`,
`winningDSP = ""`, `clearingPrice = 0`, `allBids = []`. -/
structure Outcome where
  requestID : String
  winner : Option Bid
  winningDSP : String
  clearingPrice : ℚ
  allBids : List BidWithDSP
  deriving Repr, DecidableEq

/-- The eligible-bid collection loop of `FirstPrice.Run` (part_008 lines
111-129): skip results with a non-nil error or nil response; for each seat
bid and each bid in it, append the bid tagged with the DSP name when
`bid.Price >= bidFloor`. -/
def collectEligible (bidFloor : ℚ) (results : List Result) : List BidWithDSP :=
  results.foldl (fun acc r =>
    match r.error, r.response with
    | none, some resp =>
        resp.seatBid.foldl (fun acc sb =>
          sb.bid.foldl (fun acc bid =>
            if bidFloor ≤ bid.price then acc ++ [⟨bid, r.dspName⟩] else acc) acc) acc
    | _, _ => acc) []

/-- The highest-bid scan of `FirstPrice.Run` (lines 137-143): Go keeps
`highestIdx` and replaces it only on a strictly greater price, so the first
maximal bid in iteration order is kept. -/
def pickHighest (best : BidWithDSP) : List BidWithDSP → BidWithDSP
  | [] => best
  | b :: rest => pickHighest (if best.bid.price < b.bid.price then b else best) rest

/-- `FirstPrice.Run` (part_008 lines 108-151). -/
def FirstPrice.Run (requestID : String) (bidFloor : ℚ) (results : List Result) :
    Outcome :=
  let eligibleBids := collectEligible bidFloor results
  match eligibleBids with
  | [] =>
      { requestID := requestID, winner := none, winningDSP := ""
        clearingPrice := 0, allBids := eligibleBids }
  | w :: rest =>
      let winner := pickHighest w rest
      { requestID := requestID, winner := some winner.bid
        winningDSP := winner.dspName, clearingPrice := winner.bid.price
        allBids := eligibleBids }

/-- Modelled from the spec's words (§4.3 steps 1-2), for refinement against
`collectEligible`: from each outcome that carries a successful response,
flatten every bid of every seat-bid group, retain exactly those whose price
is ≥ the floor, and tag each with the producing DSP's name, in order. -/
def specEligibleBids (bidFloor : ℚ) (results : List Result) : List BidWithDSP :=
  (results.map fun r =>
    match r.error, r.response with
    | none, some resp =>
        (((resp.seatBid.map SeatBid.bid).flatten.filter
            fun b => bidFloor ≤ b.price).map fun b => ⟨b, r.dspName⟩)
    | _, _ => []).flatten

/-! ## Lemmas about the eligible-bid collection -/

lemma bidFold_eq_filterMap (bids : List Bid) (acc : List BidWithDSP)
    (bidFloor : ℚ) (name : String) :
    bids.foldl (fun acc bid =>
        if bidFloor ≤ bid.price then acc ++ [⟨bid, name⟩] else acc) acc
      = acc ++ ((bids.filter fun b => bidFloor ≤ b.price).map
          fun b => (⟨b, name⟩ : BidWithDSP)) := by
  induction bids generalizing acc with
  | nil => simp
  | cons b bs ih =>
      by_cases h : bidFloor ≤ b.price
      · simp [List.foldl_cons, h, ih, List.filter_cons]
      · simp [List.foldl_cons, h, ih, List.filter_cons]

lemma seatFold_eq_filterMap (sbs : List SeatBid) (acc : List BidWithDSP)
    (bidFloor : ℚ) (name : String) :
    sbs.foldl (fun acc sb =>
        sb.bid.foldl (fun acc bid =>
          if bidFloor ≤ bid.price then acc ++ [⟨bid, name⟩] else acc) acc) acc
      = acc ++ (((sbs.map SeatBid.bid).flatten.filter
            fun b => bidFloor ≤ b.price).map
          fun b => (⟨b, name⟩ : BidWithDSP)) := by
  induction sbs generalizing acc with
  | nil => simp
  | cons sb sbs ih =>
      rw [List.foldl_cons, bidFold_eq_filterMap, ih]
      simp [List.filter_append, List.append_assoc]

lemma collectEligible_eq_spec_aux (bidFloor : ℚ) (results : List Result)
    (acc : List BidWithDSP) :
    results.foldl (fun acc r =>
      match r.error, r.response with
      | none, some resp =>
          resp.seatBid.foldl (fun acc sb =>
            sb.bid.foldl (fun acc bid =>
              if bidFloor ≤ bid.price then acc ++ [⟨bid, r.dspName⟩] else acc)
              acc) acc
      | _, _ => acc) acc
      = acc ++ specEligibleBids bidFloor results := by
  induction results generalizing acc with
  | nil => simp [specEligibleBids]
  | cons r rs ih =>
      rcases herr : r.error with _ | e
      · rcases hresp : r.response with _ | resp
        · simpa [specEligibleBids, herr, hresp] using ih acc
        · rw [List.foldl_cons]
          simp only [herr, hresp]
          rw [seatFold_eq_filterMap, ih]
          simp [specEligibleBids, herr, hresp, List.append_assoc]
      · simpa [specEligibleBids, herr] using ih acc

/-- The collection loop of `FirstPrice.Run` computes exactly the spec's
filtered flattening, in order. -/
lemma collectEligible_eq_spec (bidFloor : ℚ) (results : List Result) :
    collectEligible bidFloor results = specEligibleBids bidFloor results := by
  simpa [collectEligible] using
    collectEligible_eq_spec_aux bidFloor results []

/-- Every eligible bid is at or above the floor. -/
lemma specEligibleBids_floor (bidFloor : ℚ) (results : List Result)
    (p : BidWithDSP) (hp : p ∈ specEligibleBids bidFloor results) :
    bidFloor ≤ p.bid.price := by
  simp only [specEligibleBids, List.mem_flatten, List.mem_map] at hp
  obtain ⟨l, ⟨r, _, hl⟩, hpl⟩ := hp
  subst hl
  obtain ⟨name, resp?, err?, lat⟩ := r
  rcases err? with _ | e <;> rcases resp? with _ | resp <;> simp at hpl
  obtain ⟨sb, hsb, b, ⟨hbmem, hb⟩, hp⟩ := hpl
  subst hp
  exact hb

/-! ## Lemmas about the highest-bid scan -/

lemma pickHighest_mem (l : List BidWithDSP) (best : BidWithDSP) :
    pickHighest best l ∈ best :: l := by
  induction l generalizing best with
  | nil => simp [pickHighest]
  | cons b rest ih =>
      rw [pickHighest]
      by_cases h : best.bid.price < b.bid.price
      · rw [if_pos h]
        rcases List.mem_cons.mp (ih b) with h1 | h1
        · rw [h1]
          exact List.mem_cons_of_mem _ (List.mem_cons_self _ _)
        · exact List.mem_cons_of_mem _ (List.mem_cons_of_mem _ h1)
      · rw [if_neg h]
        rcases List.mem_cons.mp (ih best) with h1 | h1
        · rw [h1]
          exact List.mem_cons_self _ _
        · exact List.mem_cons_of_mem _ (List.mem_cons_of_mem _ h1)

lemma pickHighest_le (l : List BidWithDSP) (best : BidWithDSP) :
    ∀ x ∈ best :: l, x.bid.price ≤ (pickHighest best l).bid.price := by
  induction l generalizing best with
  | nil =>
      intro x hx
      rcases List.mem_cons.mp hx with h | h
      · rw [h]
        simp [pickHighest]
      · simp at h
  | cons b rest ih =>
      intro x hx
      rw [pickHighest]
      by_cases h : best.bid.price < b.bid.price
      · rw [if_pos h]
        rcases List.mem_cons.mp hx with h1 | h1
        · rw [h1]
          exact le_trans (le_of_lt h) (ih b b (List.mem_cons_self _ _))
        · exact ih b x h1
      · rw [if_neg h]
        rcases List.mem_cons.mp hx with h1 | h1
        · rw [h1]
          exact ih best best (List.mem_cons_self _ _)
        · rcases List.mem_cons.mp h1 with h2 | h2
          · rw [h2]
            exact le_trans (le_of_not_lt h)
              (ih best best (List.mem_cons_self _ _))
          · exact ih best x (List.mem_cons_of_mem _ h2)

/-- The winner picked by the scan is the first bid in iteration order whose
price equals the winning price: the Go loop replaces its candidate only on a
strictly greater price. -/
lemma pickHighest_find (l : List BidWithDSP) (best : BidWithDSP) :
    (best :: l).find?
        (fun p => decide (p.bid.price = (pickHighest best l).bid.price))
      = some (pickHighest best l) := by
  induction l generalizing best with
  | nil => simp [pickHighest, List.find?]
  | cons b rest ih =>
      rw [pickHighest]
      by_cases h : best.bid.price < b.bid.price
      · -- candidate replaced by b; best is strictly below the final price
        rw [if_pos h]
        have hble : b.bid.price ≤ (pickHighest b rest).bid.price :=
          pickHighest_le rest b b (List.mem_cons_self _ _)
        have hbest : ¬ best.bid.price = (pickHighest b rest).bid.price :=
          ne_of_lt (lt_of_lt_of_le h hble)
        rw [List.find?_cons_of_neg _ (by simpa using hbest)]
        exact ih b
      · -- candidate kept
        rw [if_neg h]
        by_cases hb : best.bid.price = (pickHighest best rest).bid.price
        · have h1 := ih best
          rw [List.find?_cons_of_pos _ (by simpa using hb)] at h1 ⊢
          exact h1
        · have hbestlt : best.bid.price < (pickHighest best rest).bid.price :=
            lt_of_le_of_ne
              (pickHighest_le rest best best (List.mem_cons_self _ _)) hb
          have hblt : ¬ b.bid.price = (pickHighest best rest).bid.price :=
            ne_of_lt (lt_of_le_of_lt (le_of_not_lt h) hbestlt)
          have h1 := ih best
          rw [List.find?_cons_of_neg _ (by simpa using hb)] at h1
          rw [List.find?_cons_of_neg _ (by simpa using hb),
            List.find?_cons_of_neg _ (by simpa using hblt)]
          exact h1

lemma run_eq_empty (rid : String) (bidFloor : ℚ) (results : List Result)
    (h : collectEligible bidFloor results = []) :
    FirstPrice.Run rid bidFloor results =
      { requestID := rid, winner := none, winningDSP := ""
        clearingPrice := 0, allBids := [] } := by
  simp [FirstPrice.Run, h]

lemma run_eq_cons (rid : String) (bidFloor : ℚ) (results : List Result)
    (w : BidWithDSP) (rest : List BidWithDSP)
    (h : collectEligible bidFloor results = w :: rest) :
    FirstPrice.Run rid bidFloor results =
      { requestID := rid, winner := some (pickHighest w rest).bid
        winningDSP := (pickHighest w rest).dspName
        clearingPrice := (pickHighest w rest).bid.price
        allBids := w :: rest } := by
  simp [FirstPrice.Run, h]

/-- C1: whenever `FirstPrice.Run` returns an outcome with a winner, the
winner (paired with the winning DSP name) is an element of the outcome's
eligible-bid list, its price is at or above the bid floor and is the
maximum over the eligible bids, the clearing price equals the winner's
price, and the winner is the first maximal-price bid in iteration order
(the first eligible bid whose price equals the winning price). -/
theorem firstPrice_run_winner (rid : String) (bidFloor : ℚ)
    (results : List Result) (w : Bid)
    (hw : (FirstPrice.Run rid bidFloor results).winner = some w) :
    (⟨w, (FirstPrice.Run rid bidFloor results).winningDSP⟩ : BidWithDSP)
        ∈ (FirstPrice.Run rid bidFloor results).allBids ∧
      bidFloor ≤ w.price ∧
      (∀ p ∈ (FirstPrice.Run rid bidFloor results).allBids,
        p.bid.price ≤ w.price) ∧
      (FirstPrice.Run rid bidFloor results).clearingPrice = w.price ∧
      (FirstPrice.Run rid bidFloor results).allBids.find?
          (fun p => decide (p.bid.price = w.price))
        = some ⟨w, (FirstPrice.Run rid bidFloor results).winningDSP⟩ := by
  rcases hce : collectEligible bidFloor results with _ | ⟨w0, rest⟩
  · rw [run_eq_empty rid bidFloor results hce] at hw
    simp at hw
  · rw [run_eq_cons rid bidFloor results w0 rest hce] at hw ⊢
    simp only [Option.some.injEq] at hw
    subst hw
    refine ⟨pickHighest_mem rest w0, ?_, ?_, rfl, pickHighest_find rest w0⟩
    · have hmem : pickHighest w0 rest ∈ specEligibleBids bidFloor results := by
        rw [← collectEligible_eq_spec, hce]
        exact pickHighest_mem rest w0
      exact specEligibleBids_floor bidFloor results _ hmem
    · exact pickHighest_le rest w0

/-- C1 witness: a concrete two-bid auction where the theorem's hypothesis
holds. -/
theorem firstPrice_run_winner_witness :
    (⟨⟨"b2", "i1", 3⟩,
        (FirstPrice.Run "r" 1 [⟨"d1",
          some ⟨"resp", [⟨[⟨"b1", "i1", 2⟩, ⟨"b2", "i1", 3⟩], "s"⟩]⟩,
          none, 0⟩]).winningDSP⟩ : BidWithDSP)
        ∈ (FirstPrice.Run "r" 1 [⟨"d1",
          some ⟨"resp", [⟨[⟨"b1", "i1", 2⟩, ⟨"b2", "i1", 3⟩], "s"⟩]⟩,
          none, 0⟩]).allBids ∧
      (1 : ℚ) ≤ (⟨"b2", "i1", 3⟩ : Bid).price ∧
      (∀ p ∈ (FirstPrice.Run "r" 1 [⟨"d1",
          some ⟨"resp", [⟨[⟨"b1", "i1", 2⟩, ⟨"b2", "i1", 3⟩], "s"⟩]⟩,
          none, 0⟩]).allBids,
        p.bid.price ≤ (⟨"b2", "i1", 3⟩ : Bid).price) ∧
      (FirstPrice.Run "r" 1 [⟨"d1",
          some ⟨"resp", [⟨[⟨"b1", "i1", 2⟩, ⟨"b2", "i1", 3⟩], "s"⟩]⟩,
          none, 0⟩]).clearingPrice = (⟨"b2", "i1", 3⟩ : Bid).price ∧
      (FirstPrice.Run "r" 1 [⟨"d1",
          some ⟨"resp", [⟨[⟨"b1", "i1", 2⟩, ⟨"b2", "i1", 3⟩], "s"⟩]⟩,
          none, 0⟩]).allBids.find?
          (fun p => decide (p.bid.price = (⟨"b2", "i1", 3⟩ : Bid).price))
        = some ⟨⟨"b2", "i1", 3⟩,
            (FirstPrice.Run "r" 1 [⟨"d1",
              some ⟨"resp", [⟨[⟨"b1", "i1", 2⟩, ⟨"b2", "i1", 3⟩], "s"⟩]⟩,
              none, 0⟩]).winningDSP⟩ :=
  firstPrice_run_winner "r" 1
    [⟨"d1", some ⟨"resp", [⟨[⟨"b1", "i1", 2⟩, ⟨"b2", "i1", 3⟩], "s"⟩]⟩,
      none, 0⟩]
    ⟨"b2", "i1", 3⟩ (by decide)

/-- C2: the outcome's eligible-bid list is exactly the in-order filtered
flattening described by the spec (bids of error-free, decoded results at or
above the floor, tagged with the producing DSP's name), and when that list
is empty the outcome has no winner, an empty winning-DSP name, and an empty
eligible-bid list. -/
theorem firstPrice_run_eligible (rid : String) (bidFloor : ℚ)
    (results : List Result) :
    (FirstPrice.Run rid bidFloor results).allBids
        = specEligibleBids bidFloor results ∧
      (specEligibleBids bidFloor results = [] →
        (FirstPrice.Run rid bidFloor results).winner = none ∧
        (FirstPrice.Run rid bidFloor results).winningDSP = "" ∧
        (FirstPrice.Run rid bidFloor results).allBids = []) := by
  rcases hce : collectEligible bidFloor results with _ | ⟨w0, rest⟩
  · rw [run_eq_empty rid bidFloor results hce]
    rw [← collectEligible_eq_spec, hce]
    exact ⟨rfl, fun _ => ⟨rfl, rfl, rfl⟩⟩
  · rw [run_eq_cons rid bidFloor results w0 rest hce]
    rw [← collectEligible_eq_spec, hce]
    exact ⟨rfl, fun h => absurd h (by simp)⟩

/-- C2 witness: instantiated at a concrete input where the filter leaves no
bid (single bid below the floor), discharging the inner hypothesis. -/
theorem firstPrice_run_eligible_witness :
    (FirstPrice.Run "r" 1 [⟨"d1",
        some ⟨"resp", [⟨[⟨"b1", "i1", 0⟩], "s"⟩]⟩, none, 0⟩]).allBids
        = specEligibleBids 1 [⟨"d1",
            some ⟨"resp", [⟨[⟨"b1", "i1", 0⟩], "s"⟩]⟩, none, 0⟩] ∧
      (FirstPrice.Run "r" 1 [⟨"d1",
        some ⟨"resp", [⟨[⟨"b1", "i1", 0⟩], "s"⟩]⟩, none, 0⟩]).winner
        = none ∧
      (FirstPrice.Run "r" 1 [⟨"d1",
        some ⟨"resp", [⟨[⟨"b1", "i1", 0⟩], "s"⟩]⟩, none, 0⟩]).winningDSP
        = "" ∧
      (FirstPrice.Run "r" 1 [⟨"d1",
        some ⟨"resp", [⟨[⟨"b1", "i1", 0⟩], "s"⟩]⟩, none, 0⟩]).allBids
        = [] :=
  ⟨(firstPrice_run_eligible "r" 1 [⟨"d1",
      some ⟨"resp", [⟨[⟨"b1", "i1", 0⟩], "s"⟩]⟩, none, 0⟩]).1,
    (firstPrice_run_eligible "r" 1 [⟨"d1",
      some ⟨"resp", [⟨[⟨"b1", "i1", 0⟩], "s"⟩]⟩, none, 0⟩]).2 (by decide)⟩

/-! ## IsNoBid and AllBids (C9) -/

lemma allBids_foldl (l : List SeatBid) (acc : List Bid) :
    l.foldl (fun bids sb => bids ++ sb.bid) acc
      = acc ++ (l.map SeatBid.bid).flatten := by
  induction l generalizing acc with
  | nil => simp
  | cons sb sbs ih => simp [ih, List.append_assoc]

/-- C9: `IsNoBid` holds exactly when every seat-bid group is empty (a nil
seat-bid array and an all-empty one are the same `[]` in the embedding, as
both have length 0 in Go), and exactly when `AllBids` is empty. -/
theorem isNoBid_iff_allBids_empty (r : BidResponse) :
    (r.IsNoBid = true ↔ ∀ sb ∈ r.seatBid, sb.bid = []) ∧
      (r.IsNoBid = true ↔ r.AllBids = []) := by
  have hall : r.AllBids = (r.seatBid.map SeatBid.bid).flatten := by
    simpa [BidResponse.AllBids] using allBids_foldl r.seatBid []
  have h1 : r.IsNoBid = true ↔ ∀ sb ∈ r.seatBid, sb.bid = [] := by
    obtain ⟨id, sbl⟩ := r
    rcases sbl with _ | ⟨sb, sbs⟩ <;>
      simp [BidResponse.IsNoBid, List.length_eq_zero]
  have h2 : r.AllBids = [] ↔ ∀ sb ∈ r.seatBid, sb.bid = [] := by
    rw [hall]
    constructor
    · intro h sb hsb
      have : sb.bid ∈ r.seatBid.map SeatBid.bid := List.mem_map_of_mem _ hsb
      rcases hbid : sb.bid with _ | ⟨b, bs⟩
      · rfl
      · rw [hbid] at this
        have : b ∈ (r.seatBid.map SeatBid.bid).flatten :=
          List.mem_flatten.mpr ⟨b :: bs, this, List.mem_cons_self _ _⟩
        rw [h] at this
        simp at this
    · intro h
      rcases hfl : (r.seatBid.map SeatBid.bid).flatten with _ | ⟨b, bs⟩
      · rfl
      · have hb : b ∈ (r.seatBid.map SeatBid.bid).flatten := by
          rw [hfl]; exact List.mem_cons_self _ _
        obtain ⟨l, hl, hbl⟩ := List.mem_flatten.mp hb
        obtain ⟨sb, hsb, rfl⟩ := List.mem_map.mp hl
        rw [h sb hsb] at hbl
        simp at hbl
  exact ⟨h1, h1.trans h2.symm⟩

/-! ## Stats collector (internal/stats) -/

/-- Per-DSP statistics, `stats.dspStatsInternal`. -/
structure DspStats where
  requests : ℕ
  bids : ℕ
  wins : ℕ
  noBids : ℕ
  errors : ℕ
  totalLatency : ℤ
  deriving Repr, DecidableEq

/-- The zero value a fresh map entry gets from `getOrCreateDSP`. -/
def DspStats.zero : DspStats :=
  { requests := 0, bids := 0, wins := 0, noBids := 0, errors := 0
    totalLatency := 0 }

/-- `stats.Collector`.  The Go `map[string]*dspStatsInternal` with
`getOrCreateDSP` defaulting to the zero record is embedded as a total
function defaulting to `DspStats.zero`; every read the claims make is a
lookup of one name, which the two representations agree on. -/
structure Collector where
  totalRequests : ℕ
  totalBids : ℕ
  totalWins : ℕ
  totalNoBids : ℕ
  totalErrors : ℕ
  totalRevenue : ℚ
  dspStats : String → DspStats

/-- `stats.New` (and the state after `Reset`). -/
def Collector.new : Collector :=
  { totalRequests := 0, totalBids := 0, totalWins := 0, totalNoBids := 0
    totalErrors := 0, totalRevenue := 0, dspStats := fun _ => DspStats.zero }

/-- `Collector.Reset`: clears all statistics. -/
def Collector.reset (_ : Collector) : Collector := Collector.new

/-- Point update of the per-DSP map (`getOrCreateDSP` + mutation through the
returned pointer). -/
def updateDsp (f : String → DspStats) (name : String) (v : DspStats) :
    String → DspStats :=
  fun x => if x = name then v else f x

/-- The per-result body of `RecordAuction`'s first loop (engine.go source,
stats section lines 483-494): bump the DSP's requests and latency, then
either its errors plus the global error counter, or its no-bids when the
response is a non-nil no-bid. -/
def recordResult (c : Collector) (r : Result) : Collector :=
  let d0 := c.dspStats r.dspName
  let d := { d0 with requests := d0.requests + 1
                     totalLatency := d0.totalLatency + r.latency }
  match r.error with
  | some _ =>
      { c with dspStats := updateDsp c.dspStats r.dspName
                 { d with errors := d.errors + 1 }
               totalErrors := c.totalErrors + 1 }
  | none =>
      match r.response with
      | some resp =>
          if resp.IsNoBid then
            { c with dspStats := updateDsp c.dspStats r.dspName
                       { d with noBids := d.noBids + 1 } }
          else
            { c with dspStats := updateDsp c.dspStats r.dspName d }
      | none =>
          { c with dspStats := updateDsp c.dspStats r.dspName d }

/-- One eligible bid's contribution to the per-DSP `bids` counters (lines
497-504).  Go first groups `outcome.AllBids` by DSP in a map and then adds
each count; adding one per bid reaches the same totals, since additions to
the same counter commute and `getOrCreateDSP` is deterministic. -/
def recordBid (c : Collector) (b : BidWithDSP) : Collector :=
  let d0 := c.dspStats b.dspName
  { c with dspStats := updateDsp c.dspStats b.dspName
             { d0 with bids := d0.bids + 1 } }

/-- The global-counter updates at the head of `RecordAuction` (lines
472-480): bump `totalRequests`, add the eligible-bid count to `totalBids`,
then bump either wins plus revenue or no-bids according to the winner. -/
def recordGlobals (c : Collector) (outcome : Outcome) : Collector :=
  let c1 := { c with totalRequests := c.totalRequests + 1
                     totalBids := c.totalBids + outcome.allBids.length }
  match outcome.winner with
  | some _ =>
      { c1 with totalWins := c1.totalWins + 1
                totalRevenue := c1.totalRevenue + outcome.clearingPrice }
  | none => { c1 with totalNoBids := c1.totalNoBids + 1 }

/-- The wins-per-DSP update at the tail of `RecordAuction` (lines 506-510):
bump the winning endpoint's `wins` when a winner with a nonempty DSP name is
present. -/
def recordWin (c : Collector) (outcome : Outcome) : Collector :=
  match outcome.winner with
  | some _ =>
      if outcome.winningDSP ≠ "" then
        let d0 := c.dspStats outcome.winningDSP
        { c with dspStats := updateDsp c.dspStats outcome.winningDSP
                   { d0 with wins := d0.wins + 1 } }
      else c
  | none => c

/-- `Collector.RecordAuction` (lines 468-511), assembled from its four
sections in source order. -/
def recordAuction (c : Collector) (outcome : Outcome) (results : List Result) :
    Collector :=
  recordWin
    (outcome.allBids.foldl recordBid
      (results.foldl recordResult (recordGlobals c outcome))) outcome

/-- `stats.DSPStats` as exposed by `Snapshot` (average latency). -/
structure DSPStatsView where
  requests : ℕ
  bids : ℕ
  wins : ℕ
  noBids : ℕ
  errors : ℕ
  avgLatency : ℤ
  deriving Repr, DecidableEq

/-- `stats.Snapshot`. -/
structure Snapshot where
  totalRequests : ℕ
  totalBids : ℕ
  totalWins : ℕ
  totalNoBids : ℕ
  totalErrors : ℕ
  totalRevenue : ℚ
  dspStats : String → DSPStatsView

/-- `Collector.Snapshot` (lines 525-556).  Go divides two `time.Duration`
values, an int64 division truncating toward zero, hence `Int.tdiv`. -/
def Collector.snapshot (c : Collector) : Snapshot :=
  { totalRequests := c.totalRequests, totalBids := c.totalBids
    totalWins := c.totalWins, totalNoBids := c.totalNoBids
    totalErrors := c.totalErrors, totalRevenue := c.totalRevenue
    dspStats := fun name =>
      let d := c.dspStats name
      { requests := d.requests, bids := d.bids, wins := d.wins
        noBids := d.noBids, errors := d.errors
        avgLatency := if d.requests > 0 then d.totalLatency.tdiv d.requests
                      else 0 } }

/-! ## Counting helpers used to state the stats claims -/

/-- Number of per-endpoint results attributed to DSP `d`. -/
def countResultsOf (d : String) (results : List Result) : ℕ :=
  results.countP (fun r => decide (r.dspName = d))

/-- Sum of the latencies of DSP `d`'s results. -/
def sumLatencyOf (d : String) (results : List Result) : ℤ :=
  ((results.filter (fun r => decide (r.dspName = d))).map Result.latency).sum

/-- Number of DSP `d`'s results that carry an error. -/
def countErrorsOf (d : String) (results : List Result) : ℕ :=
  results.countP (fun r => decide (r.dspName = d) && r.error.isSome)

/-- Number of results (any DSP) that carry an error. -/
def countAllErrors (results : List Result) : ℕ :=
  results.countP (fun r => r.error.isSome)

/-- Number of DSP `d`'s error-free results whose response is a no-bid. -/
def countNoBidsOf (d : String) (results : List Result) : ℕ :=
  results.countP (fun r => decide (r.dspName = d) && r.error.isNone &&
    (match r.response with
     | some resp => resp.IsNoBid
     | none => false))

/-- Number of eligible bids attributed to DSP `d`. -/
def countBidsOf (d : String) (bids : List BidWithDSP) : ℕ :=
  bids.countP (fun b => decide (b.dspName = d))

/-! ## Step lemmas for the stats collector -/

lemma recordResult_globals (c : Collector) (r : Result) :
    (recordResult c r).totalRequests = c.totalRequests ∧
      (recordResult c r).totalBids = c.totalBids ∧
      (recordResult c r).totalWins = c.totalWins ∧
      (recordResult c r).totalNoBids = c.totalNoBids ∧
      (recordResult c r).totalRevenue = c.totalRevenue := by
  unfold recordResult
  rcases r.error with _ | e
  · rcases r.response with _ | resp
    · exact ⟨rfl, rfl, rfl, rfl, rfl⟩
    · by_cases h : resp.IsNoBid <;> simp [h]
  · exact ⟨rfl, rfl, rfl, rfl, rfl⟩

lemma recordResult_totalErrors (c : Collector) (r : Result) :
    (recordResult c r).totalErrors
      = c.totalErrors + (if r.error.isSome then 1 else 0) := by
  unfold recordResult
  rcases r.error with _ | e
  · rcases r.response with _ | resp
    · simp
    · by_cases h : resp.IsNoBid <;> simp [h]
  · simp

lemma recordResult_dsp (c : Collector) (r : Result) (d : String) :
    ((recordResult c r).dspStats d).requests
        = (c.dspStats d).requests + (if r.dspName = d then 1 else 0) ∧
      ((recordResult c r).dspStats d).totalLatency
        = (c.dspStats d).totalLatency
            + (if r.dspName = d then r.latency else 0) ∧
      ((recordResult c r).dspStats d).errors
        = (c.dspStats d).errors
            + (if (decide (r.dspName = d) && r.error.isSome) = true
               then 1 else 0) ∧
      ((recordResult c r).dspStats d).noBids
        = (c.dspStats d).noBids
            + (if (decide (r.dspName = d) && r.error.isNone &&
                    (match r.response with
                     | some resp => resp.IsNoBid
                     | none => false)) = true then 1 else 0) ∧
      ((recordResult c r).dspStats d).bids = (c.dspStats d).bids ∧
      ((recordResult c r).dspStats d).wins = (c.dspStats d).wins := by
  unfold recordResult updateDsp
  by_cases hd : d = r.dspName
  · subst hd
    rcases r.error with _ | e
    · rcases r.response with _ | resp
      · simp
      · by_cases h : resp.IsNoBid <;> simp [h]
    · simp
  · have hd' : ¬ r.dspName = d := fun h => hd h.symm
    rcases r.error with _ | e
    · rcases r.response with _ | resp
      · simp [hd, hd']
      · by_cases h : resp.IsNoBid <;> simp [h, hd, hd']
    · simp [hd, hd']

lemma recordBid_globals (c : Collector) (b : BidWithDSP) :
    (recordBid c b).totalRequests = c.totalRequests ∧
      (recordBid c b).totalBids = c.totalBids ∧
      (recordBid c b).totalWins = c.totalWins ∧
      (recordBid c b).totalNoBids = c.totalNoBids ∧
      (recordBid c b).totalRevenue = c.totalRevenue ∧
      (recordBid c b).totalErrors = c.totalErrors := by
  unfold recordBid
  exact ⟨rfl, rfl, rfl, rfl, rfl, rfl⟩

lemma recordBid_dsp (c : Collector) (b : BidWithDSP) (d : String) :
    ((recordBid c b).dspStats d).bids
        = (c.dspStats d).bids + (if b.dspName = d then 1 else 0) ∧
      ((recordBid c b).dspStats d).requests = (c.dspStats d).requests ∧
      ((recordBid c b).dspStats d).totalLatency
        = (c.dspStats d).totalLatency ∧
      ((recordBid c b).dspStats d).errors = (c.dspStats d).errors ∧
      ((recordBid c b).dspStats d).noBids = (c.dspStats d).noBids ∧
      ((recordBid c b).dspStats d).wins = (c.dspStats d).wins := by
  unfold recordBid updateDsp
  by_cases hd : d = b.dspName
  · subst hd
    simp
  · have hd' : ¬ b.dspName = d := fun h => hd h.symm
    simp [hd, hd']

/-! ## Fold lemmas for the stats collector -/

lemma foldRecordResult_globals (results : List Result) :
    ∀ c : Collector,
      (results.foldl recordResult c).totalRequests = c.totalRequests ∧
      (results.foldl recordResult c).totalBids = c.totalBids ∧
      (results.foldl recordResult c).totalWins = c.totalWins ∧
      (results.foldl recordResult c).totalNoBids = c.totalNoBids ∧
      (results.foldl recordResult c).totalRevenue = c.totalRevenue ∧
      (results.foldl recordResult c).totalErrors
        = c.totalErrors + countAllErrors results := by
  induction results with
  | nil => intro c; simp [countAllErrors]
  | cons r rs ih =>
      intro c
      obtain ⟨h1, h2, h3, h4, h5, h6⟩ := ih (recordResult c r)
      obtain ⟨g1, g2, g3, g4, g5⟩ := recordResult_globals c r
      refine ⟨?_, ?_, ?_, ?_, ?_, ?_⟩ <;>
        simp only [List.foldl_cons, h1, h2, h3, h4, h5, h6, g1, g2, g3, g4,
          g5, recordResult_totalErrors, countAllErrors, List.countP_cons]
      rcases r.error with _ | e <;> simp [countAllErrors] <;> omega

lemma foldRecordResult_dsp (results : List Result) (d : String) :
    ∀ c : Collector,
      ((results.foldl recordResult c).dspStats d).requests
          = (c.dspStats d).requests + countResultsOf d results ∧
        ((results.foldl recordResult c).dspStats d).totalLatency
          = (c.dspStats d).totalLatency + sumLatencyOf d results ∧
        ((results.foldl recordResult c).dspStats d).errors
          = (c.dspStats d).errors + countErrorsOf d results ∧
        ((results.foldl recordResult c).dspStats d).noBids
          = (c.dspStats d).noBids + countNoBidsOf d results ∧
        ((results.foldl recordResult c).dspStats d).bids
          = (c.dspStats d).bids ∧
        ((results.foldl recordResult c).dspStats d).wins
          = (c.dspStats d).wins := by
  induction results with
  | nil =>
      intro c
      simp [countResultsOf, sumLatencyOf, countErrorsOf, countNoBidsOf]
  | cons r rs ih =>
      intro c
      obtain ⟨h1, h2, h3, h4, h5, h6⟩ := ih (recordResult c r)
      obtain ⟨g1, g2, g3, g4, g5, g6⟩ := recordResult_dsp c r d
      refine ⟨?_, ?_, ?_, ?_, ?_, ?_⟩
      · rw [List.foldl_cons, h1, g1]
        unfold countResultsOf
        rw [List.countP_cons]
        by_cases hd : r.dspName = d <;> simp [hd, countResultsOf] <;> omega
      · rw [List.foldl_cons, h2, g2]
        unfold sumLatencyOf
        rw [List.filter_cons]
        by_cases hd : r.dspName = d <;> simp [hd, sumLatencyOf] <;> omega
      · rw [List.foldl_cons, h3, g3]
        unfold countErrorsOf
        rw [List.countP_cons]
        by_cases hd : r.dspName = d
        · rcases r.error with _ | e <;> simp [hd, countErrorsOf] <;> omega
        · simp [hd, countErrorsOf]
      · rw [List.foldl_cons, h4, g4]
        unfold countNoBidsOf
        rw [List.countP_cons]
        by_cases hd : r.dspName = d
        · rcases r.error with _ | e
          · rcases r.response with _ | resp
            · simp [hd, countNoBidsOf]
            · by_cases hnb : resp.IsNoBid <;>
                simp [hd, hnb, countNoBidsOf] <;> omega
          · simp [hd, countNoBidsOf]
        · simp [hd, countNoBidsOf]
      · rw [List.foldl_cons, h5, g5]
      · rw [List.foldl_cons, h6, g6]

lemma foldRecordBid_globals (bids : List BidWithDSP) :
    ∀ c : Collector,
      (bids.foldl recordBid c).totalRequests = c.totalRequests ∧
      (bids.foldl recordBid c).totalBids = c.totalBids ∧
      (bids.foldl recordBid c).totalWins = c.totalWins ∧
      (bids.foldl recordBid c).totalNoBids = c.totalNoBids ∧
      (bids.foldl recordBid c).totalRevenue = c.totalRevenue ∧
      (bids.foldl recordBid c).totalErrors = c.totalErrors := by
  induction bids with
  | nil => intro c; simp
  | cons b bs ih =>
      intro c
      obtain ⟨h1, h2, h3, h4, h5, h6⟩ := ih (recordBid c b)
      obtain ⟨g1, g2, g3, g4, g5, g6⟩ := recordBid_globals c b
      exact ⟨by simp only [List.foldl_cons, h1, g1],
        by simp only [List.foldl_cons, h2, g2],
        by simp only [List.foldl_cons, h3, g3],
        by simp only [List.foldl_cons, h4, g4],
        by simp only [List.foldl_cons, h5, g5],
        by simp only [List.foldl_cons, h6, g6]⟩

lemma foldRecordBid_dsp (bids : List BidWithDSP) (d : String) :
    ∀ c : Collector,
      ((bids.foldl recordBid c).dspStats d).bids
          = (c.dspStats d).bids + countBidsOf d bids ∧
        ((bids.foldl recordBid c).dspStats d).requests
          = (c.dspStats d).requests ∧
        ((bids.foldl recordBid c).dspStats d).totalLatency
          = (c.dspStats d).totalLatency ∧
        ((bids.foldl recordBid c).dspStats d).errors
          = (c.dspStats d).errors ∧
        ((bids.foldl recordBid c).dspStats d).noBids
          = (c.dspStats d).noBids ∧
        ((bids.foldl recordBid c).dspStats d).wins
          = (c.dspStats d).wins := by
  induction bids with
  | nil => intro c; simp [countBidsOf]
  | cons b bs ih =>
      intro c
      obtain ⟨h1, h2, h3, h4, h5, h6⟩ := ih (recordBid c b)
      obtain ⟨g1, g2, g3, g4, g5, g6⟩ := recordBid_dsp c b d
      rw [List.foldl_cons]
      refine ⟨?_, ?_, ?_, ?_, ?_, ?_⟩ <;>
        simp only [h1, h2, h3, h4, h5, h6, g1, g2, g3, g4, g5, g6,
          countBidsOf, List.countP_cons]
      by_cases hb : b.dspName = d <;> simp [hb] <;> omega

lemma recordGlobals_fields (c : Collector) (o : Outcome) :
    (recordGlobals c o).totalRequests = c.totalRequests + 1 ∧
      (recordGlobals c o).totalBids = c.totalBids + o.allBids.length ∧
      (recordGlobals c o).totalErrors = c.totalErrors ∧
      (recordGlobals c o).dspStats = c.dspStats ∧
      (o.winner.isSome = true →
        (recordGlobals c o).totalWins = c.totalWins + 1 ∧
        (recordGlobals c o).totalNoBids = c.totalNoBids ∧
        (recordGlobals c o).totalRevenue
          = c.totalRevenue + o.clearingPrice) ∧
      (o.winner = none →
        (recordGlobals c o).totalWins = c.totalWins ∧
        (recordGlobals c o).totalNoBids = c.totalNoBids + 1 ∧
        (recordGlobals c o).totalRevenue = c.totalRevenue) := by
  unfold recordGlobals
  rcases o.winner with _ | w <;> simp

lemma recordWin_globals (c : Collector) (o : Outcome) :
    (recordWin c o).totalRequests = c.totalRequests ∧
      (recordWin c o).totalBids = c.totalBids ∧
      (recordWin c o).totalWins = c.totalWins ∧
      (recordWin c o).totalNoBids = c.totalNoBids ∧
      (recordWin c o).totalRevenue = c.totalRevenue ∧
      (recordWin c o).totalErrors = c.totalErrors := by
  unfold recordWin
  rcases o.winner with _ | w
  · exact ⟨rfl, rfl, rfl, rfl, rfl, rfl⟩
  · by_cases h : o.winningDSP ≠ "" <;> simp [h]

lemma recordWin_dsp (c : Collector) (o : Outcome) (d : String) :
    ((recordWin c o).dspStats d).requests = (c.dspStats d).requests ∧
      ((recordWin c o).dspStats d).totalLatency
        = (c.dspStats d).totalLatency ∧
      ((recordWin c o).dspStats d).errors = (c.dspStats d).errors ∧
      ((recordWin c o).dspStats d).noBids = (c.dspStats d).noBids ∧
      ((recordWin c o).dspStats d).bids = (c.dspStats d).bids := by
  unfold recordWin updateDsp
  rcases o.winner with _ | w
  · exact ⟨rfl, rfl, rfl, rfl, rfl⟩
  · by_cases h : o.winningDSP ≠ ""
    · by_cases hd : d = o.winningDSP <;> simp [h, hd]
    · simp [h]

lemma recordAuction_globals (c : Collector) (o : Outcome)
    (rs : List Result) :
    (recordAuction c o rs).totalRequests = c.totalRequests + 1 ∧
      (recordAuction c o rs).totalBids = c.totalBids + o.allBids.length ∧
      (recordAuction c o rs).totalErrors
        = c.totalErrors + countAllErrors rs ∧
      (o.winner.isSome = true →
        (recordAuction c o rs).totalWins = c.totalWins + 1 ∧
        (recordAuction c o rs).totalNoBids = c.totalNoBids ∧
        (recordAuction c o rs).totalRevenue
          = c.totalRevenue + o.clearingPrice) ∧
      (o.winner = none →
        (recordAuction c o rs).totalWins = c.totalWins ∧
        (recordAuction c o rs).totalNoBids = c.totalNoBids + 1 ∧
        (recordAuction c o rs).totalRevenue = c.totalRevenue) := by
  unfold recordAuction
  obtain ⟨w1, w2, w3, w4, w5, w6⟩ := recordWin_globals
    (o.allBids.foldl recordBid
      (rs.foldl recordResult (recordGlobals c o))) o
  obtain ⟨b1, b2, b3, b4, b5, b6⟩ := foldRecordBid_globals o.allBids
    (rs.foldl recordResult (recordGlobals c o))
  obtain ⟨r1, r2, r3, r4, r5, r6⟩ := foldRecordResult_globals rs
    (recordGlobals c o)
  obtain ⟨g1, g2, g3, g4, gsome, gnone⟩ := recordGlobals_fields c o
  refine ⟨?_, ?_, ?_, ?_, ?_⟩
  · rw [w1, b1, r1, g1]
  · rw [w2, b2, r2, g2]
  · rw [w6, b6, r6, g3]
  · intro hw
    obtain ⟨gw, gn, gr⟩ := gsome hw
    exact ⟨by rw [w3, b3, r3, gw], by rw [w4, b4, r4, gn],
      by rw [w5, b5, r5, gr]⟩
  · intro hw
    obtain ⟨gw, gn, gr⟩ := gnone hw
    exact ⟨by rw [w3, b3, r3, gw], by rw [w4, b4, r4, gn],
      by rw [w5, b5, r5, gr]⟩

/-- Sum of the clearing prices of the calls whose outcome has a winner. -/
def revenueOf (calls : List (Outcome × List Result)) : ℚ :=
  ((calls.filter fun p => p.1.winner.isSome).map
    fun p => p.1.clearingPrice).sum

/-- Sum over the calls of the length of the outcome's eligible-bid list. -/
def eligibleCountOf (calls : List (Outcome × List Result)) : ℕ :=
  (calls.map fun p => p.1.allBids.length).sum

lemma foldRecordAuction_globals (calls : List (Outcome × List Result)) :
    ∀ c : Collector,
      (calls.foldl (fun c p => recordAuction c p.1 p.2) c).totalRequests
          = c.totalRequests + calls.length ∧
        (calls.foldl (fun c p => recordAuction c p.1 p.2) c).totalWins
            + (calls.foldl (fun c p => recordAuction c p.1 p.2) c).totalNoBids
          = c.totalWins + c.totalNoBids + calls.length ∧
        (calls.foldl (fun c p => recordAuction c p.1 p.2) c).totalRevenue
          = c.totalRevenue + revenueOf calls ∧
        (calls.foldl (fun c p => recordAuction c p.1 p.2) c).totalBids
          = c.totalBids + eligibleCountOf calls := by
  induction calls with
  | nil => intro c; simp [revenueOf, eligibleCountOf]
  | cons p ps ih =>
      intro c
      obtain ⟨h1, h2, h3, h4⟩ := ih (recordAuction c p.1 p.2)
      obtain ⟨g1, g2, _, gsome, gnone⟩ := recordAuction_globals c p.1 p.2
      rw [List.foldl_cons] at *
      refine ⟨?_, ?_, ?_, ?_⟩
      · rw [h1, g1, List.length_cons]
        omega
      · rcases hw : p.1.winner with _ | w
        · obtain ⟨gw, gn, _⟩ := gnone hw
          rw [h2, gw, gn, List.length_cons]
          omega
        · obtain ⟨gw, gn, _⟩ := gsome (by rw [hw]; rfl)
          rw [h2, gw, gn, List.length_cons]
          omega
      · rcases hw : p.1.winner with _ | w
        · obtain ⟨_, _, gr⟩ := gnone hw
          rw [h3, gr]
          unfold revenueOf
          rw [List.filter_cons]
          simp [hw, add_assoc]
        · obtain ⟨_, _, gr⟩ := gsome (by rw [hw]; rfl)
          rw [h3, gr]
          unfold revenueOf
          rw [List.filter_cons]
          simp [hw, add_assoc]
      · rw [h4, g2]
        unfold eligibleCountOf
        rw [List.map_cons, List.sum_cons]
        omega

/-- C4: after n `RecordAuction` calls on a fresh (or freshly reset)
collector, a `Snapshot` reports `totalRequests = n`, each call bumped
exactly one of `totalWins`/`totalNoBids` (so their sum is n), revenue is the
sum of the clearing prices of the winning calls, and `totalBids` is the sum
of the eligible-bid list lengths. -/
theorem collector_record_then_snapshot
    (calls : List (Outcome × List Result)) :
    (∀ c : Collector, Collector.reset c = Collector.new) ∧
      (∀ (c : Collector) (o : Outcome) (rs : List Result),
        (o.winner.isSome = true →
          (recordAuction c o rs).totalWins = c.totalWins + 1 ∧
          (recordAuction c o rs).totalNoBids = c.totalNoBids) ∧
        (o.winner = none →
          (recordAuction c o rs).totalWins = c.totalWins ∧
          (recordAuction c o rs).totalNoBids = c.totalNoBids + 1)) ∧
      (calls.foldl (fun c p => recordAuction c p.1 p.2)
            Collector.new).snapshot.totalRequests = calls.length ∧
      (calls.foldl (fun c p => recordAuction c p.1 p.2)
            Collector.new).snapshot.totalWins
          + (calls.foldl (fun c p => recordAuction c p.1 p.2)
              Collector.new).snapshot.totalNoBids = calls.length ∧
      (calls.foldl (fun c p => recordAuction c p.1 p.2)
            Collector.new).snapshot.totalRevenue = revenueOf calls ∧
      (calls.foldl (fun c p => recordAuction c p.1 p.2)
            Collector.new).snapshot.totalBids = eligibleCountOf calls := by
  obtain ⟨h1, h2, h3, h4⟩ := foldRecordAuction_globals calls Collector.new
  refine ⟨fun c => rfl, ?_, ?_, ?_, ?_, ?_⟩
  · intro c o rs
    obtain ⟨_, _, _, gsome, gnone⟩ := recordAuction_globals c o rs
    exact ⟨fun hw => ⟨(gsome hw).1, (gsome hw).2.1⟩,
      fun hw => ⟨(gnone hw).1, (gnone hw).2.1⟩⟩
  · simpa [Collector.snapshot, Collector.new] using h1
  · simpa [Collector.snapshot, Collector.new] using h2
  · simpa [Collector.snapshot, Collector.new] using h3
  · simpa [Collector.snapshot, Collector.new] using h4

/-- C4 witness: two concrete calls (one with a winner, one without)
recorded on a fresh collector, with the inner hypotheses discharged at
concrete outcomes. -/
theorem collector_record_then_snapshot_witness :
    ((recordAuction Collector.new
        ⟨"r1", some ⟨"b", "i", 2⟩, "d", 2, [⟨⟨"b", "i", 2⟩, "d"⟩]⟩
        []).totalWins = Collector.new.totalWins + 1 ∧
      (recordAuction Collector.new
        ⟨"r1", some ⟨"b", "i", 2⟩, "d", 2, [⟨⟨"b", "i", 2⟩, "d"⟩]⟩
        []).totalNoBids = Collector.new.totalNoBids) ∧
      ([(⟨⟨"r1", some ⟨"b", "i", 2⟩, "d", 2, [⟨⟨"b", "i", 2⟩, "d"⟩]⟩, []⟩ :
            Outcome × List Result),
          ⟨⟨"r2", none, "", 0, []⟩, []⟩].foldl
            (fun c p => recordAuction c p.1 p.2)
            Collector.new).snapshot.totalRequests = 2 ∧
      ([(⟨⟨"r1", some ⟨"b", "i", 2⟩, "d", 2, [⟨⟨"b", "i", 2⟩, "d"⟩]⟩, []⟩ :
            Outcome × List Result),
          ⟨⟨"r2", none, "", 0, []⟩, []⟩].foldl
            (fun c p => recordAuction c p.1 p.2)
            Collector.new).snapshot.totalRevenue
        = revenueOf [⟨⟨"r1", some ⟨"b", "i", 2⟩, "d", 2,
            [⟨⟨"b", "i", 2⟩, "d"⟩]⟩, []⟩, ⟨⟨"r2", none, "", 0, []⟩, []⟩] := by
  refine ⟨((collector_record_then_snapshot []).2.1 Collector.new
      ⟨"r1", some ⟨"b", "i", 2⟩, "d", 2, [⟨⟨"b", "i", 2⟩, "d"⟩]⟩ []).1
      (by decide), ?_, ?_⟩
  · exact (collector_record_then_snapshot
      [⟨⟨"r1", some ⟨"b", "i", 2⟩, "d", 2, [⟨⟨"b", "i", 2⟩, "d"⟩]⟩, []⟩,
        ⟨⟨"r2", none, "", 0, []⟩, []⟩]).2.2.1
  · exact (collector_record_then_snapshot
      [⟨⟨"r1", some ⟨"b", "i", 2⟩, "d", 2, [⟨⟨"b", "i", 2⟩, "d"⟩]⟩, []⟩,
        ⟨⟨"r2", none, "", 0, []⟩, []⟩]).2.2.2.2.1

/-- C7: one `RecordAuction` call changes DSP `d`'s counters by exactly the
per-result contributions — requests by the number of `d`'s results, latency
by their summed latencies, errors by `d`'s error results (with the global
error counter counting all error results), no-bids by `d`'s error-free
no-bid responses — while `d`'s bids counter grows by the number of `d`'s
bids in the outcome's eligible-bid list, not by anything derived from the
raw responses. -/
theorem recordAuction_per_dsp (c : Collector) (o : Outcome)
    (rs : List Result) (d : String) :
    ((recordAuction c o rs).dspStats d).requests
        = (c.dspStats d).requests + countResultsOf d rs ∧
      ((recordAuction c o rs).dspStats d).totalLatency
        = (c.dspStats d).totalLatency + sumLatencyOf d rs ∧
      ((recordAuction c o rs).dspStats d).errors
        = (c.dspStats d).errors + countErrorsOf d rs ∧
      (recordAuction c o rs).totalErrors
        = c.totalErrors + countAllErrors rs ∧
      ((recordAuction c o rs).dspStats d).noBids
        = (c.dspStats d).noBids + countNoBidsOf d rs ∧
      ((recordAuction c o rs).dspStats d).bids
        = (c.dspStats d).bids + countBidsOf d o.allBids := by
  unfold recordAuction
  obtain ⟨w1, w2, w3, w4, w5⟩ := recordWin_dsp
    (o.allBids.foldl recordBid
      (rs.foldl recordResult (recordGlobals c o))) o d
  obtain ⟨b1, b2, b3, b4, b5, b6⟩ := foldRecordBid_dsp o.allBids d
    (rs.foldl recordResult (recordGlobals c o))
  obtain ⟨r1, r2, r3, r4, r5, r6⟩ := foldRecordResult_dsp rs d
    (recordGlobals c o)
  obtain ⟨_, _, g3, g4, _, _⟩ := recordGlobals_fields c o
  obtain ⟨_, _, _, _, _, e6⟩ := foldRecordResult_globals rs
    (recordGlobals c o)
  obtain ⟨_, _, _, _, _, eb6⟩ := foldRecordBid_globals o.allBids
    (rs.foldl recordResult (recordGlobals c o))
  obtain ⟨_, _, _, _, _, ew6⟩ := recordWin_globals
    (o.allBids.foldl recordBid
      (rs.foldl recordResult (recordGlobals c o))) o
  refine ⟨?_, ?_, ?_, ?_, ?_, ?_⟩
  · rw [w1, b2, r1, g4]
  · rw [w2, b3, r2, g4]
  · rw [w3, b4, r3, g4]
  · rw [ew6, eb6, e6, g3]
  · rw [w4, b5, r4, g4]
  · rw [w5, b1, r5, g4]

/-- C10: a per-endpoint result with neither an error nor a response yields
no eligible bids in the auction, and `RecordAuction`'s per-result loop
changes only that DSP's requests counter and cumulative latency for it; a
fresh collector recording one such result ends with that DSP's requests
strictly above the sum of its bids, no-bids and errors counters. -/
theorem nilResponse_result_effects (bidFloor : ℚ) (c : Collector)
    (r : Result) (herr : r.error = none) (hresp : r.response = none) :
    (∀ rs1 rs2 : List Result,
        collectEligible bidFloor (rs1 ++ r :: rs2)
          = collectEligible bidFloor (rs1 ++ rs2)) ∧
      recordResult c r
        = { c with
            dspStats :=
              updateDsp c.dspStats r.dspName
                ({ c.dspStats r.dspName with
                    requests := (c.dspStats r.dspName).requests + 1
                    totalLatency :=
                      (c.dspStats r.dspName).totalLatency + r.latency }) } ∧
      ((recordAuction Collector.new ⟨"r", none, "", 0, []⟩
          [⟨"d", none, none, 5⟩]).dspStats "d").requests
        > ((recordAuction Collector.new ⟨"r", none, "", 0, []⟩
              [⟨"d", none, none, 5⟩]).dspStats "d").bids
            + ((recordAuction Collector.new ⟨"r", none, "", 0, []⟩
                [⟨"d", none, none, 5⟩]).dspStats "d").noBids
            + ((recordAuction Collector.new ⟨"r", none, "", 0, []⟩
                [⟨"d", none, none, 5⟩]).dspStats "d").errors := by
  refine ⟨?_, ?_, by decide⟩
  · intro rs1 rs2
    rw [collectEligible_eq_spec, collectEligible_eq_spec]
    unfold specEligibleBids
    rw [List.map_append, List.map_append, List.flatten_append,
      List.flatten_append, List.map_cons, List.flatten_cons, herr, hresp]
    simp
  · unfold recordResult
    rw [herr, hresp]

/-- C10 witness: instantiated at a concrete error-free, response-free
result on a fresh collector. -/
theorem nilResponse_result_effects_witness :
    collectEligible 1 ([] ++ (⟨"d", none, none, 5⟩ : Result) :: [])
        = collectEligible 1 ([] ++ []) ∧
      recordResult Collector.new ⟨"d", none, none, 5⟩
        = { Collector.new with
              dspStats := updateDsp Collector.new.dspStats "d"
                ({ Collector.new.dspStats "d" with
                    requests := (Collector.new.dspStats "d").requests + 1
                    totalLatency :=
                      (Collector.new.dspStats "d").totalLatency + 5 }) } :=
  ⟨(nilResponse_result_effects 1 Collector.new ⟨"d", none, none, 5⟩
      rfl rfl).1 [] [],
    (nilResponse_result_effects 1 Collector.new ⟨"d", none, none, 5⟩
      rfl rfl).2.1⟩

/-! ## HTTP bidder client (internal/httpclient) -/

/-- The classified error values `Client.Post` can return.  `timeout` is the
`TimeoutError` wrapper; the others are the wrapped `fmt.Errorf` values for a
generic transport failure, an HTTP status ≥ 400, and a JSON decode
failure. -/
inductive PostError where
  | timeout
  | transport
  | serverError (status : ℤ)
  | decodeError
  deriving Repr, DecidableEq

/-- `httpclient.IsTimeout`: `errors.As` against `*TimeoutError` — only the
timeout wrapper matches. -/
def IsTimeout : PostError → Bool
  | .timeout => true
  | _ => false

/-- The observable outcome of the one `fasthttp` transaction inside `Post`:
either the transport failed (`deadlineRelated` = whether the error `Is`
`fasthttp.ErrTimeout`), or a response arrived with a status code and a raw
body whose JSON decode result is `some`/`none`. -/
inductive TransportOutcome where
  | failure (deadlineRelated : Bool)
  | httpResponse (statusCode : ℤ) (body : Option BidResponse)
  deriving Repr, DecidableEq

/-- `Client.Post` (client file lines 228-269) after the marshal step, as a
function of the transaction outcome.  All failures are returned as values
(`Except.error`), mirroring Go's error returns — nothing is thrown.  A 204
builds `&openrtb.BidResponse{ID: req.ID}`, whose nil seat-bid slice is
`[]`. -/
def Post (reqID : String) (t : TransportOutcome) :
    Except PostError BidResponse :=
  match t with
  | .failure deadlineRelated =>
      if deadlineRelated then .error .timeout else .error .transport
  | .httpResponse statusCode body =>
      if statusCode = 204 then .ok { id := reqID, seatBid := [] }
      else if statusCode ≥ 400 then .error (.serverError statusCode)
      else
        match body with
        | some resp => .ok resp
        | none => .error .decodeError

/-- C5: `Post` classifies every transaction outcome as the spec requires —
deadline-related transport failures become timeout errors (the only values
`IsTimeout` accepts), other transport failures become transport errors, 204
becomes a successful empty response carrying only the request id, status
≥ 400 becomes a server error carrying the status, and a 2xx other than 204
decodes the body, yielding the decoded response or a decode error.  Every
case is a returned value of the result type, never an exception. -/
theorem client_post_classification (reqID : String) :
    (Post reqID (.failure true) = .error PostError.timeout ∧
        IsTimeout PostError.timeout = true) ∧
      (Post reqID (.failure false) = .error PostError.transport ∧
        IsTimeout PostError.transport = false) ∧
      (∀ body, Post reqID (.httpResponse 204 body)
        = .ok { id := reqID, seatBid := [] }) ∧
      (∀ s body, s ≥ 400 → Post reqID (.httpResponse s body)
        = .error (.serverError s)) ∧
      (∀ s, 200 ≤ s → s < 300 → s ≠ 204 →
        (Post reqID (.httpResponse s none) = .error .decodeError ∧
          ∀ resp, Post reqID (.httpResponse s (some resp)) = .ok resp)) := by
  refine ⟨⟨rfl, rfl⟩, ⟨rfl, rfl⟩, fun body => rfl, ?_, ?_⟩
  · intro s body hs
    have h204 : ¬ s = 204 := by omega
    simp [Post, h204, hs]
  · intro s _ hlt h204
    have h400 : ¬ s ≥ 400 := by omega
    simp [Post, h204, h400]

/-- C5 witness: the status-dependent clauses applied at statuses 500 and
200. -/
theorem client_post_classification_witness :
    Post "req" (.httpResponse 500 none)
        = .error (PostError.serverError 500) ∧
      Post "req" (.httpResponse 200 none) = .error PostError.decodeError ∧
      Post "req" (.httpResponse 200
          (some { id := "resp", seatBid := [] }))
        = .ok { id := "resp", seatBid := [] } :=
  ⟨(client_post_classification "req").2.2.2.1 500 none (by decide),
    ((client_post_classification "req").2.2.2.2 200 (by decide) (by decide)
      (by decide)).1,
    ((client_post_classification "req").2.2.2.2 200 (by decide) (by decide)
      (by decide)).2 { id := "resp", seatBid := [] }⟩

/-! ## Engine lifecycle (internal/engine, lines 84-153)

The `Engine`'s mutex-protected state is the `running` flag and the nilable
`cancel` handle.  Each lock-protected section is one atomic action here.
During `Stop` the flag stays `true` until the final section (the `Stopping`
phase), so a `Start` racing with a `Stop` observes `running = true`; the
hypothesis `running = true` therefore covers both the `Running` and the
`Stopping` phase of the spec's state machine. -/

/-- The mutex-protected engine state: `running` flag and whether `cancel`
is non-nil. -/
structure EngineState where
  running : Bool
  hasCancel : Bool
  deriving Repr, DecidableEq

inductive EngineError where
  | alreadyRunning
  | notRunning
  deriving Repr, DecidableEq

/-- The zero-value state `engine.New` returns. -/
def EngineState.idle : EngineState := { running := false, hasCancel := false }

/-- `Engine.Start` (lines 84-100): under the lock, fail when `running`,
else install a cancel handle, set `running`, and launch the loop. -/
def EngineState.start (e : EngineState) : EngineState × Option EngineError :=
  if e.running then (e, some .alreadyRunning)
  else ({ running := true, hasCancel := true }, none)

/-- `Engine.Stop` (lines 103-118): cancel if a handle exists, wait for the
loop, then clear `running` and the handle.  The post-wait section always
runs, so the final state is idle regardless of the starting state. -/
def EngineState.stop (_ : EngineState) : EngineState :=
  { running := false, hasCancel := false }

/-- `Engine.IsRunning` (lines 149-153). -/
def EngineState.isRunning (e : EngineState) : Bool := e.running

/-- C6: `Start` on an idle engine succeeds and leaves it reporting
running; `Start` on any state whose `running` flag is set (the logical
running state, covering both `Running` and mid-`Stop`) returns the
already-running error and leaves the state unchanged; `Stop` on an idle
engine is a no-op returning the same idle state; and after any `Stop`,
`IsRunning` reports false. -/
theorem engine_lifecycle :
    (EngineState.idle.start
        = ({ running := true, hasCancel := true }, none) ∧
      (EngineState.idle.start).1.isRunning = true) ∧
      (∀ e : EngineState, e.running = true →
        e.start = (e, some EngineError.alreadyRunning)) ∧
      EngineState.idle.stop = EngineState.idle ∧
      (∀ e : EngineState, (e.stop).isRunning = false) := by
  refine ⟨⟨rfl, rfl⟩, ?_, rfl, fun e => rfl⟩
  intro e he
  unfold EngineState.start
  rw [if_pos he]

/-- C6 witness: the already-running clause applied to the running state. -/
theorem engine_lifecycle_witness :
    (⟨true, true⟩ : EngineState).start
      = (⟨true, true⟩, some EngineError.alreadyRunning) :=
  engine_lifecycle.2.1 ⟨true, true⟩ rfl

/-! ## Engine configuration and tick (internal/engine) -/

/-- The engine options the claims touch (`WithRPS`, `WithBidFloor`,
lines 52-63). -/
inductive EngineOption where
  | withRPS (rps : ℤ)
  | withBidFloor (floor : ℚ)
  deriving Repr, DecidableEq

/-- The configuration fields of `Engine` that `New` initialises. -/
structure EngineCfg where
  rps : ℤ
  bidFloor : ℚ
  deriving Repr, DecidableEq

def applyOption (e : EngineCfg) : EngineOption → EngineCfg
  | .withRPS r => { e with rps := r }
  | .withBidFloor f => { e with bidFloor := f }

/-- `engine.New` (lines 66-81): defaults 100 RPS and a 0.01 floor, then
applies the options in order. -/
def engineNew (opts : List EngineOption) : EngineCfg :=
  opts.foldl applyOption { rps := 100, bidFloor := 1 / 100 }

/-- The effective-floor computation of `Engine.tick` (lines 178-182).  The
Go `&&` short-circuits, so `req.Imp[0]` is read only when the impression
list is nonempty: a zero-impression request takes the engine floor and does
not fault. -/
def tickBidFloor (e : EngineCfg) (req : BidRequest) : ℚ :=
  match req.imp with
  | [] => e.bidFloor
  | imp0 :: _ => if imp0.bidFloor > 0 then imp0.bidFloor else e.bidFloor

/-- `Engine.tick` (lines 174-192) with the generated request and the
dispatcher's results supplied by the environment, and the auction fixed to
the repository's only implementation. -/
def EngineCfg.tick (e : EngineCfg) (req : BidRequest)
    (results : List Result) (c : Collector) : Outcome × Collector :=
  let bidFloor := tickBidFloor e req
  let outcome := FirstPrice.Run req.id bidFloor results
  (outcome, recordAuction c outcome results)

lemma engineNew_bidFloor_default (opts : List EngineOption)
    (h : ∀ o ∈ opts, ∀ f, o ≠ EngineOption.withBidFloor f) :
    (engineNew opts).bidFloor = 1 / 100 := by
  unfold engineNew
  have key : ∀ (l : List EngineOption) (e : EngineCfg),
      (∀ o ∈ l, ∀ f, o ≠ EngineOption.withBidFloor f) →
      (l.foldl applyOption e).bidFloor = e.bidFloor := by
    intro l
    induction l with
    | nil => intro e _; rfl
    | cons o os ih =>
        intro e hos
        rcases o with r | f
        · exact ih _ (fun o ho f => hos o (List.mem_cons_of_mem _ ho) f)
        · exact absurd rfl (hos _ (List.mem_cons_self _ _) f)
  exact key opts _ h

/-- C8: the bid floor the tick passes to the auction is the first
impression's floor when present and strictly positive, and the engine's
configured floor otherwise — including for a request with no impressions,
which does not fault; the configured floor is 0.01 when no `WithBidFloor`
option overrides it. -/
theorem engine_tick_bid_floor (opts : List EngineOption) (req : BidRequest) :
    (req.imp = [] →
        tickBidFloor (engineNew opts) req = (engineNew opts).bidFloor) ∧
      (∀ imp0 rest, req.imp = imp0 :: rest → 0 < imp0.bidFloor →
        tickBidFloor (engineNew opts) req = imp0.bidFloor) ∧
      (∀ imp0 rest, req.imp = imp0 :: rest → ¬ 0 < imp0.bidFloor →
        tickBidFloor (engineNew opts) req = (engineNew opts).bidFloor) ∧
      ((∀ o ∈ opts, ∀ f, o ≠ EngineOption.withBidFloor f) →
        (engineNew opts).bidFloor = 1 / 100) ∧
      (∀ results c,
        ((engineNew opts).tick req results c).1
          = FirstPrice.Run req.id (tickBidFloor (engineNew opts) req)
              results) := by
  refine ⟨?_, ?_, ?_, engineNew_bidFloor_default opts, fun results c => rfl⟩
  · intro h
    unfold tickBidFloor
    rw [h]
  · intro imp0 rest h hpos
    unfold tickBidFloor
    rw [h]
    exact if_pos hpos
  · intro imp0 rest h hpos
    unfold tickBidFloor
    rw [h]
    exact if_neg hpos

/-- C8 witness: a request whose first impression has floor 0.5, an
impressionless request, and an option-free engine (default floor 1/100). -/
theorem engine_tick_bid_floor_witness :
    tickBidFloor (engineNew []) ⟨"r", [⟨"i", 1/2⟩]⟩ = 1/2 ∧
      tickBidFloor (engineNew []) ⟨"r", []⟩ = (engineNew []).bidFloor ∧
      (engineNew []).bidFloor = 1 / 100 :=
  ⟨(engine_tick_bid_floor [] ⟨"r", [⟨"i", 1/2⟩]⟩).2.1 ⟨"i", 1/2⟩ []
      rfl (by norm_num),
    (engine_tick_bid_floor [] ⟨"r", []⟩).1 rfl,
    (engine_tick_bid_floor [] ⟨"r", []⟩).2.2.2.1 (fun o ho f => by
      simp at ho)⟩

/-! ## Dispatcher (internal/dispatcher, part_004 lines 310-474)

The fan-out's nondeterminism is made explicit: each endpoint's goroutine
behaviour is a `CallEnv`, the channel's arrival order is a permutation
`order` of the endpoint indices, and `cancelAt = some k` means the
collection loop took the `ctx.Done()` branch after `k` receives (taken only
while receives are outstanding, so `k ≥ n` degenerates to full
collection).  The pre-sized output array is modelled as a function from
slot index, initialised to `Result`'s zero value. -/

/-- `config.DSPConfig`: the fields the dispatcher reads. -/
structure DSPConfig where
  name : String
  endpoint : String
  deriving Repr, DecidableEq

/-- The environment's choices for one `callDSP` goroutine: whether the
context was already done at entry, what `client.Post` returned, whether the
context became done during the request, and the measured latency. -/
structure CallEnv where
  preCancelled : Bool
  postResult : Except GoError BidResponse
  cancelledDuring : Bool
  latency : ℤ
  deriving Repr

/-- `callDSP` (lines 427-455).  Every path tags the result with
`dsp.Name`. -/
def callDSP (dsp : DSPConfig) (cause : GoError) (env : CallEnv) : Result :=
  if env.preCancelled then
    { dspName := dsp.name, response := none, error := some cause
      latency := 0 }
  else
    match env.postResult with
    | .error e =>
        { dspName := dsp.name, response := none
          error := some (if env.cancelledDuring then cause else e)
          latency := env.latency }
    | .ok resp =>
        { dspName := dsp.name, response := some resp, error := none
          latency := env.latency }

/-- The zero value a slot of the pre-sized `results` array starts with. -/
def Result.zero : Result :=
  { dspName := "", response := none, error := none, latency := 0 }

/-- The synthesized cancellation outcome for a slot still empty when the
context is observed done (lines 408-415). -/
def cancelOutcome (dsp : DSPConfig) (cause : GoError) : Result :=
  { dspName := dsp.name, response := none, error := some cause
    latency := 0 }

/-- `Dispatcher.Dispatch` (lines 387-424).  An empty endpoint list returns
nil at once.  Otherwise results land in their own slot by ordinal index in
arrival order; when cancellation is observed first, every slot whose
current `DSPName` is empty — Go's emptiness test — is overwritten with the
synthesized cancellation outcome. -/
def Dispatch (dsps : List DSPConfig) (cause : GoError) (envs : ℕ → CallEnv)
    (order : List ℕ) (cancelAt : Option ℕ) : List Result :=
  if dsps.length = 0 then []
  else
    let n := dsps.length
    let call := fun i => callDSP (dsps.getD i ⟨"", ""⟩) cause (envs i)
    let received :=
      match cancelAt with
      | none => n
      | some k => min k n
    let filled := (order.take received).foldl
      (fun f i => Function.update f i (call i)) (fun _ => Result.zero)
    if received < n then
      (List.range n).map fun i =>
        if (filled i).dspName = "" then
          cancelOutcome (dsps.getD i ⟨"", ""⟩) cause
        else filled i
    else (List.range n).map filled

lemma callDSP_name (dsp : DSPConfig) (cause : GoError) (env : CallEnv) :
    (callDSP dsp cause env).dspName = dsp.name := by
  unfold callDSP
  by_cases h : env.preCancelled
  · simp [h]
  · rcases env.postResult with e | resp <;> simp [h]

lemma foldl_update_eval {β : Type} (call : ℕ → β) (order : List ℕ)
    (f0 : ℕ → β) (i : ℕ) :
    (order.foldl (fun f j => Function.update f j (call j)) f0) i
      = if i ∈ order then call i else f0 i := by
  induction order generalizing f0 with
  | nil => simp
  | cons j os ih =>
      rw [List.foldl_cons, ih]
      by_cases hos : i ∈ os
      · simp [hos]
      · by_cases hij : i = j
        · subst hij
          simp [hos, Function.update]
        · simp [hos, hij, Function.update]

lemma getD_map_range {β : Type} (f : ℕ → β) (n i : ℕ) (hi : i < n) (d : β) :
    ((List.range n).map f).getD i d = f i := by
  rw [List.getD_eq_getElem?_getD]
  simp [List.getElem?_map, List.getElem?_range, hi]

lemma dispatch_length (dsps : List DSPConfig) (cause : GoError)
    (envs : ℕ → CallEnv) (order : List ℕ) (cancelAt : Option ℕ) :
    (Dispatch dsps cause envs order cancelAt).length = dsps.length := by
  unfold Dispatch
  by_cases hn : dsps.length = 0
  · rw [if_pos hn, hn]
    rfl
  · rw [if_neg hn]
    dsimp only
    split <;> simp

lemma dispatch_getD_full (dsps : List DSPConfig) (cause : GoError)
    (envs : ℕ → CallEnv) (order : List ℕ) (cancelAt : Option ℕ)
    (hperm : order.Perm (List.range dsps.length))
    (hn : dsps.length ≠ 0)
    (hfull : ∀ k, cancelAt = some k → dsps.length ≤ k)
    (i : ℕ) (hi : i < dsps.length) :
    (Dispatch dsps cause envs order cancelAt).getD i Result.zero
      = callDSP (dsps.getD i ⟨"", ""⟩) cause (envs i) := by
  have hlen : order.length = dsps.length := by simpa using hperm.length_eq
  have hmem : i ∈ order ↔ i < dsps.length := by
    rw [hperm.mem_iff]
    exact List.mem_range
  have htake : order.take dsps.length = order := by
    rw [← hlen]
    exact List.take_length order
  rcases cancelAt with _ | k
  · unfold Dispatch
    rw [if_neg hn]
    dsimp only
    rw [if_neg (lt_irrefl _), getD_map_range _ _ _ hi, foldl_update_eval,
      htake, if_pos (hmem.mpr hi)]
  · have hnk : dsps.length ≤ k := hfull k rfl
    have hmin : min k dsps.length = dsps.length := by omega
    unfold Dispatch
    rw [if_neg hn]
    dsimp only
    rw [hmin, if_neg (lt_irrefl _), getD_map_range _ _ _ hi,
      foldl_update_eval, htake, if_pos (hmem.mpr hi)]

lemma dispatch_getD_cancel (dsps : List DSPConfig) (cause : GoError)
    (envs : ℕ → CallEnv) (order : List ℕ) (k : ℕ)
    (hk : k < dsps.length) (i : ℕ) (hi : i < dsps.length) :
    (Dispatch dsps cause envs order (some k)).getD i Result.zero
      = if i ∈ order.take k then
          (if (callDSP (dsps.getD i ⟨"", ""⟩) cause (envs i)).dspName = ""
           then cancelOutcome (dsps.getD i ⟨"", ""⟩) cause
           else callDSP (dsps.getD i ⟨"", ""⟩) cause (envs i))
        else cancelOutcome (dsps.getD i ⟨"", ""⟩) cause := by
  have hn : dsps.length ≠ 0 := by omega
  unfold Dispatch
  rw [if_neg hn]
  dsimp only
  have hmin : min k dsps.length = k := by omega
  rw [hmin, if_pos hk, getD_map_range _ _ _ hi, foldl_update_eval]
  by_cases hmem : i ∈ order.take k
  · rw [if_pos hmem, if_pos hmem]
  · rw [if_neg hmem, if_neg hmem]
    exact if_pos rfl

/-- C3 counterexample: a DSP configured with an empty name (the config
validator requires only a nonempty endpoint).  Endpoint 0's outcome is
received before cancellation — it carries a decoded response and no error —
yet, because Go tests slot emptiness by `results[i].DSPName == ""`, the
returned slot 0 is the synthesized cancellation outcome, not the collected
one: the claim's "the already-filled outcomes are returned as collected"
fails. -/
theorem dispatch_clobbers_empty_name :
    0 ∈ (([0, 1] : List ℕ).take 1) ∧
      (Dispatch [⟨"", "u0"⟩, ⟨"d1", "u1"⟩] GoError.ctxCanceled
          (fun _ => ⟨false, Except.ok ⟨"resp", []⟩, false, 1⟩) [0, 1]
          (some 1)).getD 0 Result.zero
        ≠ callDSP ⟨"", "u0"⟩ GoError.ctxCanceled
            ⟨false, Except.ok ⟨"resp", []⟩, false, 1⟩ := by
  decide

/-- C3 (amended): with the arrival order a permutation of the endpoint
indices, `Dispatch` returns exactly one entry per configured DSP, entry i
always carries DSP i's name; when cancellation is observed after k of the
receives and *every configured DSP has a nonempty name* (the amendment the
counterexample forces), the slots received before cancellation are returned
as collected and every other slot is the synthesized cancellation outcome
carrying the DSP's name and the cancellation cause; an empty DSP list
yields the empty sequence.  The call is a total function — it never fails
as a whole. -/
theorem dispatcher_dispatch_amended (dsps : List DSPConfig)
    (cause : GoError) (envs : ℕ → CallEnv) (order : List ℕ)
    (cancelAt : Option ℕ)
    (hperm : order.Perm (List.range dsps.length)) :
    (Dispatch dsps cause envs order cancelAt).length = dsps.length ∧
      (∀ i, i < dsps.length →
        ((Dispatch dsps cause envs order cancelAt).getD i
            Result.zero).dspName = (dsps.getD i ⟨"", ""⟩).name) ∧
      ((∀ d ∈ dsps, d.name ≠ "") →
        ∀ k, cancelAt = some k → k < dsps.length →
          ∀ i, i < dsps.length →
            (i ∈ order.take k →
              (Dispatch dsps cause envs order cancelAt).getD i Result.zero
                = callDSP (dsps.getD i ⟨"", ""⟩) cause (envs i)) ∧
            (i ∉ order.take k →
              (Dispatch dsps cause envs order cancelAt).getD i Result.zero
                = cancelOutcome (dsps.getD i ⟨"", ""⟩) cause)) ∧
      (dsps = [] → Dispatch dsps cause envs order cancelAt = []) := by
  refine ⟨dispatch_length dsps cause envs order cancelAt, ?_, ?_, ?_⟩
  · intro i hi
    have hn : dsps.length ≠ 0 := by omega
    rcases hca : cancelAt with _ | k
    · rw [dispatch_getD_full dsps cause envs order none hperm hn
        (fun k hk => by simp at hk) i hi]
      exact callDSP_name _ _ _
    · by_cases hk : k < dsps.length
      · rw [dispatch_getD_cancel dsps cause envs order k hk i hi]
        by_cases hmem : i ∈ order.take k
        · rw [if_pos hmem]
          by_cases hname :
              (callDSP (dsps.getD i ⟨"", ""⟩) cause (envs i)).dspName = ""
          · rw [if_pos hname]
            rfl
          · rw [if_neg hname]
            exact callDSP_name _ _ _
        · rw [if_neg hmem]
          rfl
      · rw [dispatch_getD_full dsps cause envs order (some k) hperm hn
          (fun j hj => by
            obtain rfl : k = j := by simpa using hj
            omega) i hi]
        exact callDSP_name _ _ _
  · intro hnames k hca hk i hi
    subst hca
    have hdmem : dsps.getD i ⟨"", ""⟩ ∈ dsps := by
      rw [List.getD_eq_getElem dsps _ hi]
      exact List.getElem_mem hi
    constructor
    · intro hmem
      rw [dispatch_getD_cancel dsps cause envs order k hk i hi,
        if_pos hmem, if_neg (by
          rw [callDSP_name]
          exact hnames _ hdmem)]
    · intro hmem
      rw [dispatch_getD_cancel dsps cause envs order k hk i hi,
        if_neg hmem]
  · intro h
    subst h
    rfl

/-- C3 witness: two named DSPs, arrival order `[1, 0]`, cancellation after
one receive — slot 1 is returned as collected, slot 0 is synthesized, and
both slots carry their DSP's name. -/
theorem dispatcher_dispatch_amended_witness :
    (Dispatch [⟨"d0", "u0"⟩, ⟨"d1", "u1"⟩] GoError.ctxCanceled
        (fun _ => ⟨false, Except.ok ⟨"resp", []⟩, false, 1⟩) [1, 0]
        (some 1)).length = 2 ∧
      ((Dispatch [⟨"d0", "u0"⟩, ⟨"d1", "u1"⟩] GoError.ctxCanceled
          (fun _ => ⟨false, Except.ok ⟨"resp", []⟩, false, 1⟩) [1, 0]
          (some 1)).getD 0 Result.zero).dspName = "d0" ∧
      (Dispatch [⟨"d0", "u0"⟩, ⟨"d1", "u1"⟩] GoError.ctxCanceled
          (fun _ => ⟨false, Except.ok ⟨"resp", []⟩, false, 1⟩) [1, 0]
          (some 1)).getD 1 Result.zero
        = callDSP ⟨"d1", "u1"⟩ GoError.ctxCanceled
            ⟨false, Except.ok ⟨"resp", []⟩, false, 1⟩ ∧
      (Dispatch [⟨"d0", "u0"⟩, ⟨"d1", "u1"⟩] GoError.ctxCanceled
          (fun _ => ⟨false, Except.ok ⟨"resp", []⟩, false, 1⟩) [1, 0]
          (some 1)).getD 0 Result.zero
        = cancelOutcome ⟨"d0", "u0"⟩ GoError.ctxCanceled :=
  ⟨(dispatcher_dispatch_amended [⟨"d0", "u0"⟩, ⟨"d1", "u1"⟩]
      GoError.ctxCanceled
      (fun _ => ⟨false, Except.ok ⟨"resp", []⟩, false, 1⟩) [1, 0]
      (some 1) (by decide)).1,
    (dispatcher_dispatch_amended [⟨"d0", "u0"⟩, ⟨"d1", "u1"⟩]
      GoError.ctxCanceled
      (fun _ => ⟨false, Except.ok ⟨"resp", []⟩, false, 1⟩) [1, 0]
      (some 1) (by decide)).2.1 0 (by decide),
    ((dispatcher_dispatch_amended [⟨"d0", "u0"⟩, ⟨"d1", "u1"⟩]
      GoError.ctxCanceled
      (fun _ => ⟨false, Except.ok ⟨"resp", []⟩, false, 1⟩) [1, 0]
      (some 1) (by decide)).2.2.1 (by decide) 1 rfl (by decide) 1
      (by decide)).1 (by decide),
    ((dispatcher_dispatch_amended [⟨"d0", "u0"⟩, ⟨"d1", "u1"⟩]
      GoError.ctxCanceled
      (fun _ => ⟨false, Except.ok ⟨"resp", []⟩, false, 1⟩) [1, 0]
      (some 1) (by decide)).2.2.1 (by decide) 1 rfl (by decide) 0
      (by decide)).2 (by decide)⟩

end RTB
